import Mathlib

/-!
Verification development for the MCP personal-assistant repository.

Shallow embedding of:
  * `src/mcp_servers/pizza_ordering.py`  (menu tables, `order_pizza`)
  * the meeting-scheduler interval-overlap test (spec §4.3 / §8)
  * `src/mcp_servers/pdf_reader.py`      (`read_pdf_text` page clamping,
    `ask_question_about_pdf` keyword search)
  * `src/ai_chat_assistant.py`           (`process_with_claude` dialogue loop,
    `run` session loop)

Python machine details kept: `int` becomes `Int`, money amounts become exact
rationals `ℚ` (the reference code uses Python floats only for money values
drawn from fixed two-decimal tables; decimal display formatting is not
modelled), dict lookup becomes `Option`-valued lookup, an exception escaping
a `try` block becomes an `Except String` error carrying the message text.
-/

/-! ### Pizza ordering (`src/mcp_servers/pizza_ordering.py`) -/

/-- `PIZZA_MENU`: pizza id → base price (the `price` field of the menu dict). -/
def pizzaMenuPrice : String → Option ℚ
  | "margherita" => some 12.99
  | "pepperoni" => some 14.99
  | "veggie" => some 16.99
  | "meat_lovers" => some 18.99
  | "hawaiian" => some 15.99
  | "supreme" => some 19.99
  | _ => none

/-- The menu keys joined as in `", ".join(PIZZA_MENU.keys())` (insertion order). -/
def availablePizzaTypes : String :=
  "margherita, pepperoni, veggie, meat_lovers, hawaiian, supreme"

/-- `RESTAURANTS`: restaurant id → delivery fee. -/
def restaurantDeliveryFee : String → Option ℚ
  | "pizza_hut" => some 3.99
  | "dominos" => some 2.99
  | "papa_johns" => some 4.99
  | _ => none

/-- The restaurant keys joined as in `", ".join(RESTAURANTS.keys())`. -/
def availableRestaurants : String :=
  "pizza_hut, dominos, papa_johns"

/-- The size-multiplier dict lookup with default:
`{"small": 0.8, "medium": 1.0, "large": 1.2, "extra_large": 1.4}.get(size, 1.0)`. -/
def sizeMultiplier (size : String) : ℚ :=
  if size = "small" then 0.8
  else if size = "medium" then 1.0
  else if size = "large" then 1.2
  else if size = "extra_large" then 1.4
  else 1.0

/-- One entry of `orders_db` (the fields `order_pizza` computes; the
constant customer strings and the wall-clock `order_time` are not modelled). -/
structure PizzaOrder where
  order_id : Nat
  pizza_type : String
  size : String
  quantity : Int
  restaurant : String
  pizza_price : ℚ
  subtotal : ℚ
  delivery_fee : ℚ
  total : ℚ
  status : String
  deriving DecidableEq, Repr

/-- The error string for an unknown pizza type (source line 121). -/
def pizzaNotFoundMsg (pizza_type : String) : String :=
  "Error: Pizza type \x27" ++ pizza_type ++ "\x27 not found. Available types: " ++
    availablePizzaTypes

/-- The error string for an unknown restaurant (source line 126). -/
def restaurantNotFoundMsg (restaurant : String) : String :=
  "Error: Restaurant \x27" ++ restaurant ++ "\x27 not found. Available restaurants: " ++
    availableRestaurants

/-- `order_pizza` (source lines 117-182): validate the two table keys, compute
the price, append the order to `orders_db`, return a confirmation string.
Returns (result string, new orders list).  The success confirmation string is
rendered from the exact rationals (Python prints them with `:.2f`); its text is
not the subject of any claim, while the two error strings are literal. -/
def orderPizza (pizza_type size : String) (quantity : Int) (restaurant : String)
    (orders_db : List PizzaOrder) : String × List PizzaOrder :=
  match pizzaMenuPrice pizza_type with
  | none => (pizzaNotFoundMsg pizza_type, orders_db)
  | some base_price =>
    match restaurantDeliveryFee restaurant with
    | none => (restaurantNotFoundMsg restaurant, orders_db)
    | some delivery_fee =>
      let pizza_price := base_price * sizeMultiplier size
      let subtotal := pizza_price * (quantity : ℚ)
      let total := subtotal + delivery_fee
      let order : PizzaOrder :=
        { order_id := orders_db.length + 1
          pizza_type := pizza_type
          size := size
          quantity := quantity
          restaurant := restaurant
          pizza_price := pizza_price
          subtotal := subtotal
          delivery_fee := delivery_fee
          total := total
          status := "pending" }
      let confirmation :=
        "🍕 Pizza Order Confirmed!\n\nOrder ID: #" ++ toString order.order_id ++
        "\nPizza: (" ++ size ++ ")\nQuantity: " ++ toString quantity ++
        "\nTotal: $" ++ toString total ++ "\nStatus: " ++ order.status
      (confirmation, orders_db ++ [order])

/-! ### Meeting-interval conflicts

The in-memory scheduler variant the spec describes (§4.3, §8) is not among
the files under version control here; only the Google-Calendar-backed
`check_availability` (src/mcp_servers/meeting_scheduler.py lines 272-347) is,
and it delegates the overlap filter to the remote `events.list` query
(`timeMin` = exclusive lower bound on an event end, `timeMax` = exclusive
upper bound on an event start). -/

/-- Modelled from the spec: the in-memory scheduler variant is missing from
the included sources; §4.3 states "two intervals conflict iff
new_start < existing_end AND new_end > existing_start".  This is also the
documented filter the Google-backed `check_availability` delegates to. -/
def intervalsConflict (newStart newEnd exStart exEnd : Int) : Bool :=
  decide (newStart < exEnd) && decide (newEnd > exStart)

/-- Modelled from the spec: one stored meeting of the in-memory variant,
reduced to its date and its [start, end) minute interval. -/
structure MemMeeting where
  date : String
  startMin : Int
  endMin : Int
  deriving DecidableEq, Repr

/-- Modelled from the spec: the linear overlap scan — a requested slot on
`date` conflicts iff some stored meeting on the same date overlaps it. -/
def slotHasConflict (meetings : List MemMeeting) (date : String)
    (newStart newEnd : Int) : Bool :=
  meetings.any (fun m => m.date == date && intervalsConflict newStart newEnd m.startMin m.endMin)

/-! ### PDF page-range clamping (`src/mcp_servers/pdf_reader.py` lines 79-82) -/

/-- The page-range clamp of `read_pdf_text` (also repeated verbatim in
`extract_pdf_images` and `read_pdf_with_ocr`):

    start = (page_start - 1) if page_start else 0
    end = page_end if page_end else total_pages
    start = max(0, min(start, total_pages - 1))
    end = max(start + 1, min(end, total_pages))

Python truthiness: `None` and `0` both select the default branch.
Returns the 0-based half-open range (start, end); pages `start..end-1`
are then indexed into the document. -/
def clampPageRange (page_start page_end : Option Int) (total_pages : Int) : Int × Int :=
  let start0 : Int :=
    match page_start with
    | some p => if p ≠ 0 then p - 1 else 0
    | none => 0
  let end0 : Int :=
    match page_end with
    | some p => if p ≠ 0 then p else total_pages
    | none => total_pages
  let start := max 0 (min start0 (total_pages - 1))
  let stop := max (start + 1) (min end0 total_pages)
  (start, stop)

/-! ### Theorems for the pizza, interval and page-clamp claims -/

/-- C5: for every pizza type in the menu table and restaurant in the
restaurant table, and any size string and quantity, `order_pizza` appends an
order whose total is exactly `base_price * size_multiplier * quantity +
delivery_fee` (exact rational arithmetic, hence exact to two decimal places),
where the size multiplier is the fixed table value and 1.0 for any
unrecognized size string. -/
theorem pizza_total_formula (pizza_type size restaurant : String) (quantity : Int)
    (orders_db : List PizzaOrder) (base_price delivery_fee : ℚ)
    (hp : pizzaMenuPrice pizza_type = some base_price)
    (hr : restaurantDeliveryFee restaurant = some delivery_fee) :
    (∃ o : PizzaOrder,
        (orderPizza pizza_type size quantity restaurant orders_db).2 = orders_db ++ [o] ∧
        o.total = base_price * sizeMultiplier size * (quantity : ℚ) + delivery_fee ∧
        o.order_id = orders_db.length + 1) ∧
      sizeMultiplier "small" = 0.8 ∧ sizeMultiplier "medium" = 1 ∧
      sizeMultiplier "large" = 1.2 ∧ sizeMultiplier "extra_large" = 1.4 ∧
      (size ∉ ["small", "medium", "large", "extra_large"] → sizeMultiplier size = 1) := by
  refine ⟨?_, rfl, ?_, rfl, rfl, ?_⟩
  · simp only [orderPizza, hp, hr]
    exact ⟨_, rfl, rfl, rfl⟩
  · have hm : sizeMultiplier "medium" = 1.0 := rfl
    rw [hm]; norm_num
  · intro hs
    rw [List.mem_cons, List.mem_cons, List.mem_cons, List.mem_singleton] at hs
    push_neg at hs
    obtain ⟨h1, h2, h3, h4⟩ := hs
    simp only [sizeMultiplier, if_neg h1, if_neg h2, if_neg h3, if_neg h4]
    norm_num

/-- Witness for C5 at a concrete input: a small margherita ×2 from dominos. -/
theorem pizza_total_formula_witness :
    pizzaMenuPrice "margherita" = some 12.99 ∧
    restaurantDeliveryFee "dominos" = some 2.99 ∧
    ((∃ o : PizzaOrder,
        (orderPizza "margherita" "small" 2 "dominos" ([] : List PizzaOrder)).2 =
          ([] : List PizzaOrder) ++ [o] ∧
        o.total = 12.99 * sizeMultiplier "small" * ((2 : Int) : ℚ) + 2.99 ∧
        o.order_id = ([] : List PizzaOrder).length + 1) ∧
      sizeMultiplier "small" = 0.8 ∧ sizeMultiplier "medium" = 1 ∧
      sizeMultiplier "large" = 1.2 ∧ sizeMultiplier "extra_large" = 1.4 ∧
      ("small" ∉ ["small", "medium", "large", "extra_large"] → sizeMultiplier "small" = 1)) := by
  refine ⟨rfl, rfl, ?_⟩
  exact pizza_total_formula "margherita" "small" "dominos" 2 [] 12.99 2.99 rfl rfl

/-- C9: an unknown pizza type or unknown restaurant makes `order_pizza` return
the corresponding error string naming the value and listing the available
keys, and leaves the order store unchanged, consuming no order id. -/
theorem order_pizza_unknown_rejected (pizza_type size restaurant : String)
    (quantity : Int) (orders_db : List PizzaOrder)
    (h : pizzaMenuPrice pizza_type = none ∨ restaurantDeliveryFee restaurant = none) :
    (orderPizza pizza_type size quantity restaurant orders_db).2 = orders_db ∧
      ((pizzaMenuPrice pizza_type = none ∧
          (orderPizza pizza_type size quantity restaurant orders_db).1 =
            pizzaNotFoundMsg pizza_type) ∨
        (pizzaMenuPrice pizza_type ≠ none ∧
          (orderPizza pizza_type size quantity restaurant orders_db).1 =
            restaurantNotFoundMsg restaurant)) := by
  rcases hp : pizzaMenuPrice pizza_type with _ | base
  · exact ⟨by simp [orderPizza, hp], Or.inl ⟨rfl, by simp [orderPizza, hp]⟩⟩
  · rcases hr : restaurantDeliveryFee restaurant with _ | fee
    · refine ⟨by simp [orderPizza, hp, hr], Or.inr ⟨by simp [hp], by simp [orderPizza, hp, hr]⟩⟩
    · rcases h with h | h
      · rw [hp] at h; cases h
      · rw [hr] at h; cases h

/-- Witness for C9 at a concrete input: ordering a "calzone" leaves the
store unchanged and yields the literal unknown-pizza message. -/
theorem order_pizza_unknown_rejected_witness :
    (orderPizza "calzone" "large" 1 "dominos" ([] : List PizzaOrder)).2 = [] ∧
      ((pizzaMenuPrice "calzone" = none ∧
          (orderPizza "calzone" "large" 1 "dominos" ([] : List PizzaOrder)).1 =
            pizzaNotFoundMsg "calzone") ∨
        (pizzaMenuPrice "calzone" ≠ none ∧
          (orderPizza "calzone" "large" 1 "dominos" ([] : List PizzaOrder)).1 =
            restaurantNotFoundMsg "dominos")) :=
  order_pizza_unknown_rejected "calzone" "large" "dominos" 1 [] (Or.inl rfl)

/-- C6 (spec-modelled): the scheduler conflict test holds iff
`s1 < e2 ∧ s2 < e1`; adjacent intervals (`e1 = s2` or `e2 = s1`) never
conflict; the scan over a stored list reports a conflict iff some stored
meeting on the same date overlaps the requested slot. -/
theorem interval_conflict_iff (s1 e1 s2 e2 : Int) :
    (intervalsConflict s1 e1 s2 e2 = true ↔ s1 < e2 ∧ s2 < e1) ∧
      (e1 = s2 → intervalsConflict s1 e1 s2 e2 = false) ∧
      (e2 = s1 → intervalsConflict s1 e1 s2 e2 = false) ∧
      (∀ (meetings : List MemMeeting) (date : String),
        slotHasConflict meetings date s1 e1 = true ↔
          ∃ m ∈ meetings, m.date = date ∧ s1 < m.endMin ∧ m.startMin < e1) := by
  refine ⟨?_, ?_, ?_, ?_⟩
  · simp [intervalsConflict, and_comm]
  · intro h; subst h
    simp only [intervalsConflict, Bool.and_eq_false_iff, decide_eq_false_iff_not, not_lt]
    right; exact le_refl _
  · intro h; subst h
    simp only [intervalsConflict, Bool.and_eq_false_iff, decide_eq_false_iff_not, not_lt]
    left; exact le_refl _
  · intro meetings date
    simp only [slotHasConflict, List.any_eq_true, Bool.and_eq_true, beq_iff_eq,
      intervalsConflict, decide_eq_true_eq, gt_iff_lt]

/-- Witness for C6 at concrete inputs: [9:00,10:00) vs [9:30,10:30)
(in minutes) conflict; adjacency at 10:00 does not. -/
theorem interval_conflict_iff_witness :
    (intervalsConflict 540 600 570 630 = true ↔ (540 : Int) < 630 ∧ (570 : Int) < 600) ∧
      ((600 : Int) = 570 → intervalsConflict 540 600 570 630 = false) ∧
      ((630 : Int) = 540 → intervalsConflict 540 600 570 630 = false) ∧
      (∀ (meetings : List MemMeeting) (date : String),
        slotHasConflict meetings date 540 600 = true ↔
          ∃ m ∈ meetings, m.date = date ∧ (540 : Int) < m.endMin ∧ m.startMin < 600) :=
  interval_conflict_iff 540 600 570 630

/-- Bounds of the clamp expression, generic in the raw start/end values. -/
theorem clampPageRange_bounds (s0 e0 tp : Int) (h : 1 ≤ tp) :
    0 ≤ max 0 (min s0 (tp - 1)) ∧ max 0 (min s0 (tp - 1)) ≤ tp - 1 ∧
      max 0 (min s0 (tp - 1)) + 1 ≤ max (max 0 (min s0 (tp - 1)) + 1) (min e0 tp) ∧
      max (max 0 (min s0 (tp - 1)) + 1) (min e0 tp) ≤ tp := by
  have hb : max 0 (min s0 (tp - 1)) ≤ tp - 1 := max_le (by omega) (min_le_right _ _)
  exact ⟨le_max_left _ _, hb, le_max_left _ _, max_le (by omega) (min_le_right _ _)⟩

/-- C10: with at least one page, the clamped range is non-empty and in
bounds: `0 ≤ start ≤ total_pages - 1` and `start + 1 ≤ stop ≤ total_pages`,
for all `page_start`/`page_end` arguments including out-of-range ones. -/
theorem page_range_clamped (page_start page_end : Option Int) (total_pages : Int)
    (h : 1 ≤ total_pages) :
    0 ≤ (clampPageRange page_start page_end total_pages).1 ∧
      (clampPageRange page_start page_end total_pages).1 ≤ total_pages - 1 ∧
      (clampPageRange page_start page_end total_pages).1 + 1 ≤
        (clampPageRange page_start page_end total_pages).2 ∧
      (clampPageRange page_start page_end total_pages).2 ≤ total_pages := by
  simp only [clampPageRange]
  exact clampPageRange_bounds _ _ total_pages h

/-- Witness for C10 at a concrete input: a reversed, out-of-range request
(start 9, end -4) on a 3-page document still clamps to a valid range. -/
theorem page_range_clamped_witness :
    0 ≤ (clampPageRange (some 9) (some (-4)) 3).1 ∧
      (clampPageRange (some 9) (some (-4)) 3).1 ≤ 3 - 1 ∧
      (clampPageRange (some 9) (some (-4)) 3).1 + 1 ≤ (clampPageRange (some 9) (some (-4)) 3).2 ∧
      (clampPageRange (some 9) (some (-4)) 3).2 ≤ 3 :=
  page_range_clamped (some 9) (some (-4)) 3 (by norm_num)

/-! ### Executable Python-string primitives

The core `String` functions (`splitOn`, `toLower`, `trim`) are defined by
well-founded recursion on byte positions and do not reduce in the kernel, so
the embedding uses structurally recursive char-list versions mirroring the
Python operations used by the source. -/

/-- Python `str.lower()` (character-wise lowering). -/
def lowerStr (s : String) : String := String.mk (s.data.map Char.toLower)

/-- Split a char-list at every char satisfying `p`, keeping empty pieces;
an empty input gives one empty piece (as Python `"".split(c) == [""]`). -/
def splitOnPred (p : Char → Bool) : List Char → List (List Char)
  | [] => [[]]
  | a :: t =>
    let r := splitOnPred p t
    if p a then [] :: r
    else
      match r with
      | [] => [[a]]
      | h :: t2 => (a :: h) :: t2

/-- Python `s.split(c)`: split at every occurrence of `c`, keeping empties. -/
def splitCharList (c : Char) (l : List Char) : List (List Char) :=
  splitOnPred (fun a => a == c) l

/-- Python `s.split()` word splitting: split on whitespace, no empties. -/
def splitWhitespace (s : String) : List String :=
  ((splitOnPred Char.isWhitespace s.data).filter (fun w => !w.isEmpty)).map String.mk

/-- Python `str.strip()`: drop leading and trailing whitespace. -/
def wsStrip (s : String) : String :=
  String.mk (((s.data.dropWhile Char.isWhitespace).reverse.dropWhile Char.isWhitespace).reverse)

/-- `w` starts the list `s`. -/
def listStartsWith : List Char → List Char → Bool
  | [], _ => true
  | _ :: _, [] => false
  | a :: w, b :: s => a == b && listStartsWith w s

/-- Python substring containment `w in s` (the empty string is in everything). -/
def containsSub (w : List Char) : List Char → Bool
  | [] => w.isEmpty
  | b :: t => listStartsWith w (b :: t) || containsSub w t

/-! ### PDF keyword QA (`src/mcp_servers/pdf_reader.py` lines 559-590) -/

/-- `question_words`: the lowercased question words longer than 3 characters
(source line 565). -/
def questionKeywords (question : String) : List String :=
  (splitWhitespace (lowerStr question)).filter (fun w => w.length > 3)

/-- `matches` for one fragment: how many keywords occur (as substrings) in
the lowercased fragment (source line 570). -/
def matchCount (keywords : List String) (sentence : String) : Nat :=
  keywords.countP (fun w => containsSub w.data (lowerStr sentence).data)

/-- `sentences = all_text.split('.')` (source line 561). -/
def textFragments (allText : String) : List String :=
  (splitCharList '.' allText.data).map String.mk

/-- `relevant_sentences`: each fragment with a positive match count, as the
pair (stripped fragment, match count), in original order (lines 567-573). -/
def relevantFragments (allText question : String) : List (String × Nat) :=
  (textFragments allText).filterMap (fun s =>
    let m := matchCount (questionKeywords question) s
    if 0 < m then some (wsStrip s, m) else none)

/-- Insert into a descending-by-count list, after entries with a strictly
greater count (so equal counts keep their original relative order). -/
def insertByCount (p : String × Nat) : List (String × Nat) → List (String × Nat)
  | [] => [p]
  | q :: rest => if q.2 > p.2 then q :: insertByCount p rest else p :: q :: rest

/-- `relevant_sentences.sort(key=lambda x: x[1], reverse=True)` (line 576):
Python list.sort is a stable descending sort on the count; modelled as the
stable insertion sort, which produces the same ordering. -/
def sortByCount : List (String × Nat) → List (String × Nat)
  | [] => []
  | p :: rest => insertByCount p (sortByCount rest)

/-- The literal no-match reply of `ask_question_about_pdf` (source line 590). -/
def couldNotFindMsg (question : String) : String :=
  "❌ Could not find relevant information about \x27" ++ question ++
  "\x27 in the loaded PDF(s).\n\nTry:\n• Loading more content from the PDF" ++
  "\n• Using different keywords\n• Reading with OCR if the content is in images"

/-- The answer assembled from the top fragments (source lines 579-588); empty
stripped fragments are skipped when printing (line 584 `if sentence:`). -/
def answerMsg (sources : List String) (question : String)
    (top : List (String × Nat)) : String :=
  "🔍 Answer based on " ++ toString sources.length ++ " document(s):\n\n" ++
  "Question: " ++ question ++ "\n\nRelevant excerpts:\n\n" ++
  String.join (top.map (fun p => if p.1 ≠ "" then "• " ++ p.1 ++ "\n\n" else "")) ++
  "\n📚 Sources: " ++ String.intercalate ", " sources

/-- The keyword-search core of `ask_question_about_pdf` (lines 559-590),
given the concatenated stored text and the source file paths (the
document-store assembly of lines 535-557 supplies `allText` and `sources`). -/
def askQuestionCore (allText : String) (sources : List String)
    (question : String) : String :=
  let rel := sortByCount (relevantFragments allText question)
  if rel.isEmpty then couldNotFindMsg question
  else answerMsg sources question (rel.take 5)

/-! ### Lemmas about the stable descending sort, and the C7 theorem -/

/-- Membership in an insertion result comes from the new element or the list. -/
theorem mem_insertByCount {p x : String × Nat} {l : List (String × Nat)}
    (h : x ∈ insertByCount p l) : x = p ∨ x ∈ l := by
  induction l with
  | nil => simpa [insertByCount] using h
  | cons q t ih =>
    rw [insertByCount] at h
    by_cases hq : q.2 > p.2
    · rw [if_pos hq] at h
      rcases List.mem_cons.mp h with h | h
      · exact Or.inr (List.mem_cons.mpr (Or.inl h))
      · rcases ih h with h | h
        · exact Or.inl h
        · exact Or.inr (List.mem_cons.mpr (Or.inr h))
    · rw [if_neg hq] at h
      exact List.mem_cons.mp h

/-- Inserting preserves the descending-by-count pairwise ordering. -/
theorem insertByCount_pairwise {p : String × Nat} {l : List (String × Nat)}
    (hl : l.Pairwise (fun a b => b.2 ≤ a.2)) :
    (insertByCount p l).Pairwise (fun a b => b.2 ≤ a.2) := by
  induction l with
  | nil => simp [insertByCount]
  | cons q t ih =>
    obtain ⟨hq, ht⟩ := List.pairwise_cons.mp hl
    rw [insertByCount]
    by_cases hgt : q.2 > p.2
    · rw [if_pos hgt]
      refine List.pairwise_cons.mpr ⟨?_, ih ht⟩
      intro x hx
      rcases mem_insertByCount hx with rfl | hx
      · exact le_of_lt hgt
      · exact hq x hx
    · rw [if_neg hgt]
      refine List.pairwise_cons.mpr ⟨?_, hl⟩
      intro x hx
      rcases List.mem_cons.mp hx with rfl | hx
      · omega
      · exact le_trans (hq x hx) (by omega)

/-- The sorted list is descending by match count. -/
theorem sortByCount_pairwise (l : List (String × Nat)) :
    (sortByCount l).Pairwise (fun a b => b.2 ≤ a.2) := by
  induction l with
  | nil => simp [sortByCount]
  | cons p t ih => exact insertByCount_pairwise ih

/-- Filtering by an exact count commutes with insertion: the new element lands
in front of the equal-count entries already present. -/
theorem filter_insertByCount (p : String × Nat) (l : List (String × Nat)) (c : Nat) :
    (insertByCount p l).filter (fun x => x.2 == c) =
      if p.2 == c then p :: l.filter (fun x => x.2 == c)
      else l.filter (fun x => x.2 == c) := by
  induction l with
  | nil => simp only [insertByCount, List.filter_cons, List.filter_nil]
  | cons q t ih =>
    rw [insertByCount]
    by_cases hgt : q.2 > p.2
    · rw [if_pos hgt, List.filter_cons, ih]
      by_cases hpc : p.2 = c
      · by_cases hqc : q.2 = c
        · omega
        · simp [hpc, hqc, List.filter_cons]
      · simp [hpc, List.filter_cons]
    · rw [if_neg hgt]
      by_cases hpc : p.2 = c
      · simp [hpc, List.filter_cons]
      · simp [hpc, List.filter_cons]

/-- Stability: entries with any given match count appear in the sorted list
exactly in their original relative order. -/
theorem sortByCount_filter (l : List (String × Nat)) (c : Nat) :
    (sortByCount l).filter (fun x => x.2 == c) = l.filter (fun x => x.2 == c) := by
  induction l with
  | nil => rfl
  | cons p t ih =>
    rw [sortByCount, filter_insertByCount, ih, List.filter_cons]

/-- Inserting is a permutation of consing. -/
theorem insertByCount_perm (p : String × Nat) (l : List (String × Nat)) :
    (insertByCount p l).Perm (p :: l) := by
  induction l with
  | nil => simp [insertByCount]
  | cons q t ih =>
    rw [insertByCount]
    by_cases hgt : q.2 > p.2
    · rw [if_pos hgt]
      exact (ih.cons q).trans (List.Perm.swap p q t)
    · rw [if_neg hgt]

/-- The sorted list is a permutation of the original. -/
theorem sortByCount_perm (l : List (String × Nat)) : (sortByCount l).Perm l := by
  induction l with
  | nil => rfl
  | cons p t ih => exact (insertByCount_perm p (sortByCount t)).trans (ih.cons p)

/-- C7: `ask_question_about_pdf` splits the stored text on periods, keys on
lowercased question words longer than three characters, scores fragments by
keyword matches, and answers from the top five: the sorted relevant list is
descending by match count, ties keep original fragment order (stability), it
is a permutation of the relevant fragments; no relevant fragment at all means
every period fragment has zero matches and the literal could-not-find message
is returned instead of an exception, otherwise the answer is built from the
first five sorted fragments. -/
theorem pdf_question_top5 (allText question : String) (sources : List String) :
    ((sortByCount (relevantFragments allText question)).Pairwise (fun a b => b.2 ≤ a.2)) ∧
      (∀ c : Nat, (sortByCount (relevantFragments allText question)).filter (fun x => x.2 == c) =
        (relevantFragments allText question).filter (fun x => x.2 == c)) ∧
      (sortByCount (relevantFragments allText question)).Perm
        (relevantFragments allText question) ∧
      (relevantFragments allText question = [] ↔
        ∀ frag ∈ textFragments allText, matchCount (questionKeywords question) frag = 0) ∧
      (relevantFragments allText question = [] →
        askQuestionCore allText sources question = couldNotFindMsg question) ∧
      (relevantFragments allText question ≠ [] →
        askQuestionCore allText sources question =
          answerMsg sources question
            ((sortByCount (relevantFragments allText question)).take 5)) := by
  refine ⟨sortByCount_pairwise _, fun c => sortByCount_filter _ c, sortByCount_perm _,
    ?_, ?_, ?_⟩
  · rw [relevantFragments, List.filterMap_eq_nil_iff]
    constructor
    · intro h frag hmem
      have h2 := h frag hmem
      by_contra hne
      rw [if_pos (Nat.pos_of_ne_zero hne)] at h2
      cases h2
    · intro h frag hmem
      simp [h frag hmem]
  · intro h
    rw [askQuestionCore, h]
    rfl
  · intro h
    rw [askQuestionCore]
    have hlen : (sortByCount (relevantFragments allText question)).length ≠ 0 := by
      rw [(sortByCount_perm _).length_eq]
      simpa [List.length_eq_zero] using h
    rw [if_neg (by simpa [List.isEmpty_iff_length_eq_zero] using hlen)]

/-- Witness for C7 at a concrete input: on stored text with matching and
non-matching fragments, the relevant list is non-empty and the answer is
assembled from the top five sorted fragments. -/
theorem pdf_question_top5_witness :
    relevantFragments "Cats purr. Dogs bark. The cats sleep" "What do cats do" ≠ [] ∧
      askQuestionCore "Cats purr. Dogs bark. The cats sleep" ["notes.pdf"] "What do cats do" =
        answerMsg ["notes.pdf"] "What do cats do"
          ((sortByCount
            (relevantFragments "Cats purr. Dogs bark. The cats sleep" "What do cats do")).take 5) :=
  ⟨by decide,
    (pdf_question_top5 "Cats purr. Dogs bark. The cats sleep" "What do cats do"
      ["notes.pdf"]).2.2.2.2.2 (by decide)⟩

/-! ### The dialogue loop (`src/ai_chat_assistant.py`)

`process_with_claude` (lines 245-433) and one iteration of the `run` session
loop (lines 443-477).  The model API and the six tool executors are external
collaborators: the model is an oracle `callModel` returning either a response
or a raised exception (modelled as `Except String` carrying the message
text), and each executor is a total `Input → String` (every wrapper catches
its own exceptions and returns a string).  `content[0].text` on a response is
partial in Python — an empty content list raises `IndexError` and a leading
tool-use block raises `AttributeError` — modelled by `firstContentText`
returning an error (the message texts stand in for the SDK exception texts,
which no claim depends on). -/

/-- One `tool_result` dict: `{"type": "tool_result", "tool_use_id": ..., "content": ...}`. -/
structure ToolResult where
  tool_use_id : String
  content : String
  deriving DecidableEq, Repr

/-- One content block of a model response: a text block or a tool-use block
(`content_block.type` distinguishes them; a tool-use block carries
`.id`, `.name`, `.input`). -/
inductive ContentBlock (Input : Type) where
  | text (s : String)
  | toolUse (id name : String) (input : Input)
  deriving DecidableEq, Repr

/-- A model response: `stop_reason` plus the content block list. -/
structure ModelResponse (Input : Type) where
  stop_reason : String
  content : List (ContentBlock Input)
  deriving DecidableEq, Repr

/-- Message content: a plain string, an echoed assistant block list
(line 414), or a tool-result list (line 415). -/
inductive MsgContent (Input : Type) where
  | str (s : String)
  | blocks (bs : List (ContentBlock Input))
  | results (rs : List ToolResult)
  deriving DecidableEq, Repr

/-- One entry of the `messages` list sent to the model. -/
structure Message (Input : Type) where
  role : String
  content : MsgContent Input
  deriving DecidableEq, Repr

/-- One entry of `self.conversation_history` (lines 457-461). -/
structure HistEntry where
  timestamp : String
  user : String
  assistant : String
  deriving DecidableEq, Repr

/-- The six executors the dispatch chain (lines 375-402) can invoke, as total
string-returning oracles (each one catches its own exceptions in the source). -/
structure ToolEnv (Input : Type) where
  sendSimpleEmail : Input → String
  searchWeb : Input → String
  readPdfText : Input → String
  readPdfWithOcr : Input → String
  askQuestionPdf : Input → String
  getPdfInfo : Input → String

/-- The tool names the dispatch chain recognizes. -/
def knownToolNames : List String :=
  ["send_simple_email", "search_web", "read_pdf_text", "read_pdf_with_ocr",
   "ask_question_about_pdf", "get_pdf_info"]

/-- The `if tool_name == ... elif ... else` dispatch chain (lines 375-404):
an unrecognized name synthesizes the literal `"Unknown tool: <name>"`. -/
def dispatchTool {Input : Type} (env : ToolEnv Input) (name : String) (inp : Input) : String :=
  if name = "send_simple_email" then env.sendSimpleEmail inp
  else if name = "search_web" then env.searchWeb inp
  else if name = "read_pdf_text" then env.readPdfText inp
  else if name = "read_pdf_with_ocr" then env.readPdfWithOcr inp
  else if name = "ask_question_about_pdf" then env.askQuestionPdf inp
  else if name = "get_pdf_info" then env.getPdfInfo inp
  else "Unknown tool: " ++ name

/-- The block loop (lines 366-410): accumulate `tool_results` (one per
tool-use block, keyed by the block id, in block order) and `assistant_text`
(the concatenated text blocks). -/
def runBlocks {Input : Type} (env : ToolEnv Input) :
    List (ContentBlock Input) → List ToolResult × String
  | [] => ([], "")
  | ContentBlock.text s :: rest =>
      ((runBlocks env rest).1, s ++ (runBlocks env rest).2)
  | ContentBlock.toolUse id name inp :: rest =>
      (⟨id, dispatchTool env name inp⟩ :: (runBlocks env rest).1, (runBlocks env rest).2)

/-- The ids of the tool-use blocks of a response, in order. -/
def toolUseIds {Input : Type} : List (ContentBlock Input) → List String
  | [] => []
  | ContentBlock.text _ :: rest => toolUseIds rest
  | ContentBlock.toolUse id _ _ :: rest => id :: toolUseIds rest

/-- The (name, id) pairs of the tool-use blocks of a response, in order;
these are exactly the tool calls the loop dispatches. -/
def toolUseNameIds {Input : Type} : List (ContentBlock Input) → List (String × String)
  | [] => []
  | ContentBlock.text _ :: rest => toolUseNameIds rest
  | ContentBlock.toolUse id name _ :: rest => (name, id) :: toolUseNameIds rest

/-- `response.content[0].text` (lines 425 and 430): ok for a leading text
block; an empty list raises `IndexError` and a leading tool-use block raises
`AttributeError` (stand-in message texts). -/
def firstContentText {Input : Type} : List (ContentBlock Input) → Except String String
  | [] => Except.error "list index out of range"
  | ContentBlock.text s :: _ => Except.ok s
  | ContentBlock.toolUse _ _ _ :: _ =>
      Except.error "ToolUseBlock object has no attribute text"

/-- The spec notion "first text segment of a response": the text of the first
text block, wherever it sits in the content list. -/
def firstTextSegment {Input : Type} : List (ContentBlock Input) → Option String
  | [] => none
  | ContentBlock.text s :: _ => some s
  | ContentBlock.toolUse _ _ _ :: rest => firstTextSegment rest

/-- `self.conversation_history[-10:]` (line 343). -/
def histWindow (history : List HistEntry) : List HistEntry :=
  history.drop (history.length - 10)

/-- Lines 344-346: each history entry contributes its user text and, when
non-empty (Python truthiness), its assistant text. -/
def entryMessages {Input : Type} (e : HistEntry) : List (Message Input) :=
  if e.assistant ≠ "" then
    [⟨"user", MsgContent.str e.user⟩, ⟨"assistant", MsgContent.str e.assistant⟩]
  else
    [⟨"user", MsgContent.str e.user⟩]

/-- Lines 341-349: the last-10 history window flattened, then the current
user message. -/
def buildMessages {Input : Type} (history : List HistEntry) (userMessage : String) :
    List (Message Input) :=
  ((histWindow history).map entryMessages).flatten ++ [⟨"user", MsgContent.str userMessage⟩]

/-- Lines 414-415: the second call payload = the first-call messages, then the
original assistant response content, then one user turn holding the results. -/
def secondCallMessages {Input : Type} (env : ToolEnv Input)
    (messages : List (Message Input)) (resp : ModelResponse Input) :
    List (Message Input) :=
  messages ++ [⟨"assistant", MsgContent.blocks resp.content⟩,
    ⟨"user", MsgContent.results (runBlocks env resp.content).1⟩]

/-- The outermost per-turn handler string (line 433). -/
def claudeErrorMsg (m : String) : String := "Error processing with Claude: " ++ m

/-- The pre-`try` guard string (line 248). -/
def noClientMsg : String :=
  "Error: Claude API not available. Please set ANTHROPIC_API_KEY in your .env file"

/-- The observable outcome of one turn: the returned answer, plus (for the
theorems) the message lists passed to the model and the (name, id) pairs of
the tool calls actually dispatched. -/
structure TurnTrace (Input : Type) where
  answer : String
  modelCalls : List (List (Message Input))
  executed : List (String × String)
  deriving DecidableEq

/-- `process_with_claude` (lines 245-433).  The guard for a missing client
comes first (line 247); inside the `try`, the first model call may raise; on
`stop_reason == "tool_use"` every block is processed, and if any tool result
was produced the second call is issued and `final_response.content[0].text`
returned, else the buffered assistant text; without tool use,
`response.content[0].text` is returned.  Every raised exception is converted
by the single outer handler to `claudeErrorMsg`. -/
def processWithClaude {Input : Type} (clientAvailable : Bool) (env : ToolEnv Input)
    (callModel : List (Message Input) → Except String (ModelResponse Input))
    (history : List HistEntry) (userMessage : String) : TurnTrace Input :=
  if clientAvailable then
    let messages := buildMessages history userMessage
    match callModel messages with
    | Except.error m => ⟨claudeErrorMsg m, [messages], []⟩
    | Except.ok response =>
      if response.stop_reason = "tool_use" then
        let pr := runBlocks env response.content
        if pr.1.isEmpty then
          ⟨pr.2, [messages], toolUseNameIds response.content⟩
        else
          let messages2 := secondCallMessages env messages response
          match callModel messages2 with
          | Except.error m =>
              ⟨claudeErrorMsg m, [messages, messages2], toolUseNameIds response.content⟩
          | Except.ok finalResponse =>
            match firstContentText finalResponse.content with
            | Except.error m =>
                ⟨claudeErrorMsg m, [messages, messages2], toolUseNameIds response.content⟩
            | Except.ok t => ⟨t, [messages, messages2], toolUseNameIds response.content⟩
      else
        match firstContentText response.content with
        | Except.error m => ⟨claudeErrorMsg m, [messages], []⟩
        | Except.ok t => ⟨t, [messages], []⟩
  else
    ⟨noClientMsg, [], []⟩

/-- `self.conversation_history[-1]["assistant"] = response` (line 471). -/
def setLastAssistant : List HistEntry → String → List HistEntry
  | [], _ => []
  | [e], a => [{ e with assistant := a }]
  | e :: e2 :: t, a => e :: setLastAssistant (e2 :: t) a

/-- `user_input.lower() in ["quit", "exit", "bye"]` (line 452). -/
def isQuitCommand (s : String) : Bool :=
  lowerStr s == "quit" || lowerStr s == "exit" || lowerStr s == "bye"

/-- The outcome of one iteration of the `run` loop. -/
inductive StepOutcome (Input : Type) where
  | quitSession
  | skipTurn
  | reply (history : List HistEntry) (answer : String)
  deriving DecidableEq

/-- One iteration of the `run` session loop (lines 443-471): strip the line,
skip empty input, quit on the terminal commands, otherwise append the history
entry, process the turn, store the answer on the last entry, and continue. -/
def runStep {Input : Type} (clientAvailable : Bool) (env : ToolEnv Input)
    (callModel : List (Message Input) → Except String (ModelResponse Input))
    (history : List HistEntry) (timestamp rawLine : String) : StepOutcome Input :=
  let user_input := wsStrip rawLine
  if user_input == "" then StepOutcome.skipTurn
  else if isQuitCommand user_input then StepOutcome.quitSession
  else
    let h1 := history ++ [⟨timestamp, user_input, ""⟩]
    let response := (processWithClaude clientAvailable env callModel h1 user_input).answer
    StepOutcome.reply (setLastAssistant h1 response) response

/-! ### Helper lemmas for the dialogue-loop theorems -/

/-- A non-nil list has `isEmpty = false`. -/
theorem isEmpty_eq_false_of_ne_nil {α : Type} {l : List α} (h : l ≠ []) :
    l.isEmpty = false := by
  cases l with
  | nil => exact absurd rfl h
  | cons a t => rfl

/-- The block loop yields one result per tool-use block, carrying exactly the
ids of the tool-use blocks, in block order. -/
theorem runBlocks_ids {Input : Type} (env : ToolEnv Input)
    (content : List (ContentBlock Input)) :
    (runBlocks env content).1.map ToolResult.tool_use_id = toolUseIds content := by
  induction content with
  | nil => rfl
  | cons b rest ih =>
    cases b with
    | text s => simpa [runBlocks, toolUseIds] using ih
    | toolUse id name inp => simp [runBlocks, toolUseIds, ih]

/-- The block loop distributes over list concatenation (result component). -/
theorem runBlocks_append {Input : Type} (env : ToolEnv Input)
    (xs ys : List (ContentBlock Input)) :
    (runBlocks env (xs ++ ys)).1 = (runBlocks env xs).1 ++ (runBlocks env ys).1 := by
  induction xs with
  | nil => simp [runBlocks]
  | cons b rest ih =>
    cases b with
    | text s => simpa [runBlocks] using ih
    | toolUse id name inp => simp [runBlocks, ih]

/-! ### Concrete fixtures (used by witnesses and the counterexample) -/

/-- A concrete executor environment over a unit input type. -/
def env0 : ToolEnv Unit :=
  ⟨fun _ => "email sent", fun _ => "search results", fun _ => "pdf text",
   fun _ => "ocr text", fun _ => "pdf answer", fun _ => "pdf info"⟩

/-- A first response requesting two tools, one of them unknown. -/
def resp1demo : ModelResponse Unit :=
  ⟨"tool_use", [ContentBlock.text "Let me check.",
    ContentBlock.toolUse "toolu_01" "search_web" (),
    ContentBlock.toolUse "toolu_02" "mystery_tool" ()]⟩

/-- A second response that is plain text. -/
def resp2demo : ModelResponse Unit := ⟨"end_turn", [ContentBlock.text "All done."]⟩

/-- A second response whose first block is a tool-use block, with its first
text segment only in second position. -/
def resp2mixed : ModelResponse Unit :=
  ⟨"tool_use", [ContentBlock.toolUse "toolu_09" "search_web" (),
    ContentBlock.text "hello"]⟩

/-- A model oracle: first call (one message) answers `resp1demo`, the second
call (three messages) answers `resp2demo`. -/
def callModelDemo (msgs : List (Message Unit)) : Except String (ModelResponse Unit) :=
  if msgs.length ≤ 1 then Except.ok resp1demo else Except.ok resp2demo

/-- A model oracle whose second response starts with a tool-use block. -/
def callModelMixed (msgs : List (Message Unit)) : Except String (ModelResponse Unit) :=
  if msgs.length ≤ 1 then Except.ok resp1demo else Except.ok resp2mixed

/-- A model oracle that always raises (e.g. a network failure). -/
def callModelBoom (_ : List (Message Unit)) : Except String (ModelResponse Unit) :=
  Except.error "Connection error"

/-! ### Dialogue-loop theorems -/

/-- C1: when the first response stops for tool use, each tool_use block
produces exactly one tool_result with the same id (same list of ids, in block
order, hence N results for N calls and none dropped), and the second call is
made with the first-call messages plus the original assistant response plus
the single user turn carrying exactly those results. -/
theorem tool_results_complete {Input : Type} (env : ToolEnv Input)
    (callModel : List (Message Input) → Except String (ModelResponse Input))
    (history : List HistEntry) (userMessage : String) (resp1 : ModelResponse Input)
    (h1 : callModel (buildMessages history userMessage) = Except.ok resp1)
    (h2 : resp1.stop_reason = "tool_use")
    (h3 : (runBlocks env resp1.content).1 ≠ []) :
    ((runBlocks env resp1.content).1.map ToolResult.tool_use_id = toolUseIds resp1.content) ∧
      (runBlocks env resp1.content).1.length = (toolUseIds resp1.content).length ∧
      (processWithClaude true env callModel history userMessage).modelCalls =
        [buildMessages history userMessage,
          secondCallMessages env (buildMessages history userMessage) resp1] ∧
      secondCallMessages env (buildMessages history userMessage) resp1 =
        buildMessages history userMessage ++
          [⟨"assistant", MsgContent.blocks resp1.content⟩,
            ⟨"user", MsgContent.results (runBlocks env resp1.content).1⟩] := by
  refine ⟨runBlocks_ids env resp1.content, ?_, ?_, rfl⟩
  · rw [← runBlocks_ids env resp1.content, List.length_map]
  · have hne := isEmpty_eq_false_of_ne_nil h3
    rcases hc2 : callModel (secondCallMessages env (buildMessages history userMessage) resp1)
      with m | resp2
    · simp [processWithClaude, h1, h2, hne, hc2]
    · rcases hft : firstContentText resp2.content with m | t
      · simp [processWithClaude, h1, h2, hne, hc2, hft]
      · simp [processWithClaude, h1, h2, hne, hc2, hft]

/-- Witness for C1 at a concrete input: two tool calls produce exactly two
results with matching ids and the second call carries them. -/
theorem tool_results_complete_witness :
    callModelDemo (buildMessages [] "hi") = Except.ok resp1demo ∧
      resp1demo.stop_reason = "tool_use" ∧
      (runBlocks env0 resp1demo.content).1 ≠ [] ∧
      (((runBlocks env0 resp1demo.content).1.map ToolResult.tool_use_id =
          toolUseIds resp1demo.content) ∧
        (runBlocks env0 resp1demo.content).1.length = (toolUseIds resp1demo.content).length ∧
        (processWithClaude true env0 callModelDemo [] "hi").modelCalls =
          [buildMessages [] "hi",
            secondCallMessages env0 (buildMessages [] "hi") resp1demo] ∧
        secondCallMessages env0 (buildMessages [] "hi") resp1demo =
          buildMessages [] "hi" ++
            [⟨"assistant", MsgContent.blocks resp1demo.content⟩,
              ⟨"user", MsgContent.results (runBlocks env0 resp1demo.content).1⟩]) :=
  ⟨rfl, rfl, by decide,
    tool_results_complete env0 callModelDemo [] "hi" resp1demo rfl rfl (by decide)⟩

/-- C2: a tool-use block with a name outside the dispatch chain yields the
literal result `"Unknown tool: <name>"`, keyed by the block id and in
position among the other results; the turn does not abort — the second call
is still issued (carrying that result in its payload) and the second
response's text is returned. -/
theorem unknown_tool_result {Input : Type} (env : ToolEnv Input) (id name : String)
    (inp : Input) (pre post : List (ContentBlock Input))
    (h : name ∉ knownToolNames) :
    dispatchTool env name inp = "Unknown tool: " ++ name ∧
      (runBlocks env (pre ++ ContentBlock.toolUse id name inp :: post)).1 =
        (runBlocks env pre).1 ++
          ⟨id, "Unknown tool: " ++ name⟩ :: (runBlocks env post).1 ∧
      (∀ (callModel : List (Message Input) → Except String (ModelResponse Input))
        (history : List HistEntry) (userMessage : String)
        (resp1 resp2 : ModelResponse Input) (t : String),
        callModel (buildMessages history userMessage) = Except.ok resp1 →
        resp1.stop_reason = "tool_use" →
        resp1.content = pre ++ ContentBlock.toolUse id name inp :: post →
        callModel (secondCallMessages env (buildMessages history userMessage) resp1) =
          Except.ok resp2 →
        firstContentText resp2.content = Except.ok t →
        (processWithClaude true env callModel history userMessage).answer = t ∧
          (processWithClaude true env callModel history userMessage).modelCalls.length = 2) := by
  have hd : dispatchTool env name inp = "Unknown tool: " ++ name := by
    simp only [knownToolNames, List.mem_cons, List.mem_singleton, not_or] at h
    obtain ⟨n1, n2, n3, n4, n5, n6⟩ := h
    simp [dispatchTool, n1, n2, n3, n4, n5, n6]
  have hrb : (runBlocks env (pre ++ ContentBlock.toolUse id name inp :: post)).1 =
      (runBlocks env pre).1 ++
        ⟨id, "Unknown tool: " ++ name⟩ :: (runBlocks env post).1 := by
    rw [runBlocks_append]
    simp [runBlocks, hd]
  refine ⟨hd, hrb, ?_⟩
  intro callModel history um resp1 resp2 t hm1 hs hc hm2 hft
  have h3 : (runBlocks env resp1.content).1 ≠ [] := by
    rw [hc, runBlocks_append]
    simp [runBlocks]
  have hne := isEmpty_eq_false_of_ne_nil h3
  constructor
  · simp [processWithClaude, hm1, hs, hne, hm2, hft]
  · simp [processWithClaude, hm1, hs, hne, hm2, hft]

/-- Witness for C2 at a concrete input: the "mystery_tool" call yields the
literal result, keeps its position and id, and the turn still completes with
the second response's text. -/
theorem unknown_tool_result_witness :
    ("mystery_tool" ∉ knownToolNames) ∧
      dispatchTool env0 "mystery_tool" () = "Unknown tool: mystery_tool" ∧
      (runBlocks env0 ([ContentBlock.text "Let me check.",
          ContentBlock.toolUse "toolu_01" "search_web" ()] ++
          ContentBlock.toolUse "toolu_02" "mystery_tool" () :: [])).1 =
        (runBlocks env0 [ContentBlock.text "Let me check.",
            ContentBlock.toolUse "toolu_01" "search_web" ()]).1 ++
          ⟨"toolu_02", "Unknown tool: mystery_tool"⟩ ::
            (runBlocks env0 ([] : List (ContentBlock Unit))).1 ∧
      (processWithClaude true env0 callModelDemo [] "hi").answer = "All done." ∧
      (processWithClaude true env0 callModelDemo [] "hi").modelCalls.length = 2 := by
  have main := unknown_tool_result env0 "toolu_02" "mystery_tool" ()
    [ContentBlock.text "Let me check.", ContentBlock.toolUse "toolu_01" "search_web" ()]
    [] (by decide)
  have run := main.2.2 callModelDemo [] "hi" resp1demo resp2demo "All done."
    rfl rfl rfl rfl rfl
  exact ⟨by decide, main.1, main.2.1, run.1, run.2⟩

/-- C3 counterexample: the code returns `final_response.content[0].text`, not
the first text segment.  With a second response whose first content block is
a tool-use block and whose first text segment is "hello", the turn issues its
two calls but returns the outer handler's error string instead of "hello"
(in Python, accessing `.text` on a tool-use block raises `AttributeError`). -/
theorem first_text_segment_not_returned :
    firstTextSegment resp2mixed.content = some "hello" ∧
      (processWithClaude true env0 callModelMixed [] "hi").modelCalls.length = 2 ∧
      (processWithClaude true env0 callModelMixed [] "hi").answer ≠ "hello" :=
  ⟨rfl, rfl, by decide⟩

/-- C3 (amended): every turn issues at most two model calls; after tool
results are submitted, exactly the first response's tool calls are executed
(tool-use requests in the second response are never dispatched and no third
call exists), and the second response's first content block — when it is a
text block — has its text returned verbatim; when it is not, the outer
handler's error string is returned instead. -/
theorem second_response_handling {Input : Type} (clientAvailable : Bool)
    (env : ToolEnv Input)
    (callModel : List (Message Input) → Except String (ModelResponse Input))
    (history : List HistEntry) (userMessage : String) :
    (processWithClaude clientAvailable env callModel history userMessage).modelCalls.length ≤ 2 ∧
      (∀ (resp1 resp2 : ModelResponse Input),
        callModel (buildMessages history userMessage) = Except.ok resp1 →
        resp1.stop_reason = "tool_use" →
        (runBlocks env resp1.content).1 ≠ [] →
        callModel (secondCallMessages env (buildMessages history userMessage) resp1) =
          Except.ok resp2 →
        (processWithClaude true env callModel history userMessage).executed =
            toolUseNameIds resp1.content ∧
          (∀ t, firstContentText resp2.content = Except.ok t →
            (processWithClaude true env callModel history userMessage).answer = t) ∧
          (∀ m, firstContentText resp2.content = Except.error m →
            (processWithClaude true env callModel history userMessage).answer =
              claudeErrorMsg m)) := by
  constructor
  · cases clientAvailable with
    | false => simp [processWithClaude]
    | true =>
      rcases hm : callModel (buildMessages history userMessage) with m | resp
      · simp [processWithClaude, hm]
      · by_cases hs : resp.stop_reason = "tool_use"
        · cases hE : (runBlocks env resp.content).1.isEmpty with
          | true => simp [processWithClaude, hm, hs, hE]
          | false =>
            rcases hm2 : callModel
                (secondCallMessages env (buildMessages history userMessage) resp)
              with m2 | resp2
            · simp [processWithClaude, hm, hs, hE, hm2]
            · rcases hft : firstContentText resp2.content with m3 | t
              · simp [processWithClaude, hm, hs, hE, hm2, hft]
              · simp [processWithClaude, hm, hs, hE, hm2, hft]
        · rcases hft : firstContentText resp.content with m3 | t
          · simp [processWithClaude, hm, hs, hft]
          · simp [processWithClaude, hm, hs, hft]
  · intro resp1 resp2 hm1 hs h3 hm2
    have hne := isEmpty_eq_false_of_ne_nil h3
    refine ⟨?_, ?_, ?_⟩
    · rcases hft : firstContentText resp2.content with m | t <;>
        simp [processWithClaude, hm1, hs, hne, hm2, hft]
    · intro t hft
      simp [processWithClaude, hm1, hs, hne, hm2, hft]
    · intro m hft
      simp [processWithClaude, hm1, hs, hne, hm2, hft]

/-- Witness for the amended C3 at a concrete input: two calls, the executed
tools are exactly the first response's requests, the second response's
leading text block is returned verbatim. -/
theorem second_response_handling_witness :
    (processWithClaude true env0 callModelDemo [] "hi").modelCalls.length ≤ 2 ∧
      (processWithClaude true env0 callModelDemo [] "hi").executed =
        toolUseNameIds resp1demo.content ∧
      (processWithClaude true env0 callModelDemo [] "hi").answer = "All done." := by
  have main := second_response_handling true env0 callModelDemo [] "hi"
  have inner := main.2 resp1demo resp2demo rfl rfl (by decide) rfl
  exact ⟨main.1, inner.1, inner.2.1 "All done." rfl⟩

/-- C4: every exception escaping the per-turn processing — a raised first
call, a raised second call, or the `content[0].text` access failing on either
response — is converted by the single outer handler into the string
`"Error processing with Claude: <message>"`; and for any non-empty, non-quit
input line the session step always produces a reply and continues (the model
string in the source is the literal "Claude"). -/
theorem turn_error_containment {Input : Type} (env : ToolEnv Input)
    (callModel : List (Message Input) → Except String (ModelResponse Input))
    (history : List HistEntry) (userMessage : String) :
    (∀ m, callModel (buildMessages history userMessage) = Except.error m →
      (processWithClaude true env callModel history userMessage).answer = claudeErrorMsg m) ∧
      (∀ (resp1 : ModelResponse Input) (m : String),
        callModel (buildMessages history userMessage) = Except.ok resp1 →
        resp1.stop_reason = "tool_use" →
        (runBlocks env resp1.content).1 ≠ [] →
        callModel (secondCallMessages env (buildMessages history userMessage) resp1) =
          Except.error m →
        (processWithClaude true env callModel history userMessage).answer = claudeErrorMsg m) ∧
      (∀ (resp1 resp2 : ModelResponse Input) (m : String),
        callModel (buildMessages history userMessage) = Except.ok resp1 →
        resp1.stop_reason = "tool_use" →
        (runBlocks env resp1.content).1 ≠ [] →
        callModel (secondCallMessages env (buildMessages history userMessage) resp1) =
          Except.ok resp2 →
        firstContentText resp2.content = Except.error m →
        (processWithClaude true env callModel history userMessage).answer = claudeErrorMsg m) ∧
      (∀ (resp1 : ModelResponse Input) (m : String),
        callModel (buildMessages history userMessage) = Except.ok resp1 →
        resp1.stop_reason ≠ "tool_use" →
        firstContentText resp1.content = Except.error m →
        (processWithClaude true env callModel history userMessage).answer = claudeErrorMsg m) ∧
      (∀ (clientAvailable : Bool) (timestamp rawLine : String),
        wsStrip rawLine ≠ "" →
        isQuitCommand (wsStrip rawLine) = false →
        ∃ h2 answer, runStep clientAvailable env callModel history timestamp rawLine =
          StepOutcome.reply h2 answer) := by
  refine ⟨?_, ?_, ?_, ?_, ?_⟩
  · intro m hm
    simp [processWithClaude, hm]
  · intro resp1 m hm1 hs h3 hm2
    have hne := isEmpty_eq_false_of_ne_nil h3
    simp [processWithClaude, hm1, hs, hne, hm2]
  · intro resp1 resp2 m hm1 hs h3 hm2 hft
    have hne := isEmpty_eq_false_of_ne_nil h3
    simp [processWithClaude, hm1, hs, hne, hm2, hft]
  · intro resp1 m hm1 hs hft
    simp [processWithClaude, hm1, hs, hft]
  · intro b ts line hne hq
    refine ⟨setLastAssistant (history ++ [⟨ts, wsStrip line, ""⟩])
        ((processWithClaude b env callModel (history ++ [⟨ts, wsStrip line, ""⟩])
          (wsStrip line)).answer),
      (processWithClaude b env callModel (history ++ [⟨ts, wsStrip line, ""⟩])
        (wsStrip line)).answer, ?_⟩
    simp only [runStep]
    rw [if_neg (by simp [hne]), if_neg (by simp [hq])]

/-- Witness for C4 at a concrete input: a raised network error becomes the
error string and the session step still replies. -/
theorem turn_error_containment_witness :
    (processWithClaude true env0 callModelBoom [] "hi").answer =
        claudeErrorMsg "Connection error" ∧
      (∃ h2 answer, runStep true env0 callModelBoom [] "t0" " hello " =
        StepOutcome.reply h2 answer) := by
  have main := turn_error_containment env0 callModelBoom [] "hi"
  exact ⟨main.1 "Connection error" rfl,
    main.2.2.2.2 true "t0" " hello " (by decide) (by decide)⟩

/-- C8: the message list sent to the model is exactly the most recent 10
history entries (each contributing its user text and, when non-empty, its
assistant text, oldest first) followed by the current user message; the
window has at most 10 entries, all drawn from the history, and entries older
than the last 10 never contribute. -/
theorem history_window_bound (Input : Type) (history : List HistEntry)
    (userMessage : String) :
    (@buildMessages Input history userMessage =
        ((histWindow history).map entryMessages).flatten ++
          [⟨"user", MsgContent.str userMessage⟩]) ∧
      (histWindow history).length ≤ 10 ∧
      (∀ e ∈ histWindow history, e ∈ history) ∧
      (∀ old recent, history = old ++ recent → recent.length = 10 →
        @buildMessages Input history userMessage =
          @buildMessages Input recent userMessage) := by
  refine ⟨rfl, ?_, ?_, ?_⟩
  · simp only [histWindow, List.length_drop]
    omega
  · intro e he
    exact List.drop_subset _ _ he
  · rintro old recent rfl hlen
    have hw : histWindow (old ++ recent) = histWindow recent := by
      rw [histWindow, histWindow, List.length_append, hlen]
      simp [List.drop_left]
    rw [buildMessages, buildMessages, hw]

/-- Twelve history entries: two beyond the window plus ten recent ones. -/
def oldEntries : List HistEntry :=
  [⟨"t1", "old question", "old answer"⟩, ⟨"t2", "also old", ""⟩]

/-- The ten most recent history entries of the witness scenario. -/
def recentEntries : List HistEntry :=
  [⟨"t3", "u3", "a3"⟩, ⟨"t4", "u4", ""⟩, ⟨"t5", "u5", "a5"⟩, ⟨"t6", "u6", "a6"⟩,
   ⟨"t7", "u7", ""⟩, ⟨"t8", "u8", "a8"⟩, ⟨"t9", "u9", "a9"⟩, ⟨"t10", "u10", "a10"⟩,
   ⟨"t11", "u11", ""⟩, ⟨"t12", "u12", "a12"⟩]

/-- Witness for C8 at a concrete input: with twelve entries, the two oldest
contribute nothing to the message list. -/
theorem history_window_bound_witness :
    recentEntries.length = 10 ∧
      @buildMessages Unit (oldEntries ++ recentEntries) "current" =
        @buildMessages Unit recentEntries "current" :=
  ⟨rfl, (history_window_bound Unit (oldEntries ++ recentEntries) "current").2.2.2
    oldEntries recentEntries rfl rfl⟩
